import Mathlib

/-!
Shallow embedding of the resilient-click primitive of
src/playwright_poc.py: the functions click_with_retry (lines 58-96)
and click_with_fallback_chain (lines 620-661).

The Playwright page object is modelled as an outcome oracle (`Driver`):
for a given locator string and 1-based attempt number it says whether
wait_for_selector succeeds, whether the normal page.click succeeds, and
whether the forced page.click (force=True) succeeds.  Every driver call
the Python code issues is recorded in an event trace, so claims about
how many waits/clicks/sleeps happen, and in what order, are statements
about that trace.  An exception raised by a driver call is modelled as
the corresponding oracle returning false; since every driver call in
the two functions sits inside a try/except, no exception escapes, which
the embedding reflects by being a total function.

click_with_retry has no return statement after its loop, so when the
loop body never runs (max_attempts <= 0) Python returns None: the model
returns an Option Bool, with none for that implicit None.
-/

/-- Outcome oracle for the Playwright page: for locator and 1-based
attempt number, whether wait_for_selector, page.click, and
page.click(force=True) succeed. -/
structure Driver where
  waitOk  : String → Nat → Bool
  clickOk : String → Nat → Bool
  forceOk : String → Nat → Bool

/-- One driver call as recorded in the trace: a wait_for_selector call
(with its timeout argument), an asyncio.sleep of the given milliseconds,
or a page.click (force flag as in the source). -/
inductive Event where
  | waitSel (locator : String) (timeoutMs : Int)
  | sleepEv (ms : Nat)
  | click (locator : String) (force : Bool)
deriving DecidableEq, Repr

/-- Body shared by one attempt of click_with_retry (lines 74-88) and of
the per-locator loop of click_with_fallback_chain (lines 641-652):
wait for "attached" state, settle with asyncio.sleep(0.5), try the
normal click, and on its failure try the forced click.  Returns the
trace of driver calls of this attempt and whether the attempt ended in
a successful click. -/
def clickAttempt (d : Driver) (locator : String) (timeout : Int) (attempt : Nat) :
    List Event × Bool :=
  if d.waitOk locator attempt then
    if d.clickOk locator attempt then
      ([Event.waitSel locator timeout, Event.sleepEv 500, Event.click locator false], true)
    else if d.forceOk locator attempt then
      ([Event.waitSel locator timeout, Event.sleepEv 500, Event.click locator false,
        Event.click locator true], true)
    else
      ([Event.waitSel locator timeout, Event.sleepEv 500, Event.click locator false,
        Event.click locator true], false)
  else
    ([Event.waitSel locator timeout], false)

/-- The retry loop of click_with_retry (lines 71-96), counting down the
remaining attempts; `attempt` is the current 1-based attempt number.
`remaining = 0` after a failed attempt corresponds to
`attempt < max_attempts` being false in the source (line 91), the case
that returns False; otherwise the source sleeps 1 second (line 93) and
retries.  An empty loop falls off the function body: Python None,
modelled as none. -/
def retryGo (d : Driver) (locator : String) (timeout : Int) (attempt : Nat) :
    Nat → List Event × Option Bool
  | 0 => ([], none)
  | remaining + 1 =>
    let r := clickAttempt d locator timeout attempt
    if r.2 then (r.1, some true)
    else if remaining = 0 then (r.1, some false)
    else
      let r2 := retryGo d locator timeout (attempt + 1) remaining
      (r.1 ++ Event.sleepEv 1000 :: r2.1, r2.2)

/-- click_with_retry (lines 58-96): run the retry loop for attempts
1..max_attempts.  Python's range(1, max_attempts + 1) is empty whenever
max_attempts <= 0, which Int.toNat reproduces. -/
def click_with_retry (d : Driver) (locator : String) (timeout maxAttempts : Int) :
    List Event × Option Bool :=
  retryGo d locator timeout 1 maxAttempts.toNat

/-- The per-locator attempt loop of click_with_fallback_chain
(lines 639-656): same attempt body, but a failed final attempt falls
through to the next locator instead of returning, and the inter-attempt
pause is asyncio.sleep(0.5) (line 656). -/
def chainGo (d : Driver) (locator : String) (timeout : Int) (attempt : Nat) :
    Nat → List Event × Bool
  | 0 => ([], false)
  | remaining + 1 =>
    let r := clickAttempt d locator timeout attempt
    if r.2 then (r.1, true)
    else if remaining = 0 then (r.1, false)
    else
      let r2 := chainGo d locator timeout (attempt + 1) remaining
      (r.1 ++ Event.sleepEv 500 :: r2.1, r2.2)

/-- The outer loop of click_with_fallback_chain (lines 636-661): try
each locator in order; stop at the first success; return False after
the list is exhausted (line 661). -/
def chainLoop (d : Driver) (timeout maxAttempts : Int) : List String → List Event × Bool
  | [] => ([], false)
  | loc :: rest =>
    let r := chainGo d loc timeout 1 maxAttempts.toNat
    if r.2 then (r.1, true)
    else
      let r2 := chainLoop d timeout maxAttempts rest
      (r.1 ++ r2.1, r2.2)

/-- click_with_fallback_chain (lines 620-661). -/
def click_with_fallback_chain (d : Driver) (locators : List String) (timeout maxAttempts : Int) :
    List Event × Bool :=
  chainLoop d timeout maxAttempts locators

/-- An attempt succeeds iff the wait succeeds and then the normal or the
forced click succeeds. -/
def attemptSucceeds (d : Driver) (locator : String) (attempt : Nat) : Bool :=
  d.waitOk locator attempt && (d.clickOk locator attempt || d.forceOk locator attempt)

/-- Which driver call an event is, for counting. -/
def isWait : Event → Bool
  | Event.waitSel _ _ => true
  | _ => false

def isWaitFor (loc : String) : Event → Bool
  | Event.waitSel l _ => l = loc
  | _ => false

def isClickFor (loc : String) : Event → Bool
  | Event.click l _ => l = loc
  | _ => false

def isSleep (ms : Nat) : Event → Bool
  | Event.sleepEv m => m = ms
  | _ => false

/-- Number of events in a trace satisfying a predicate. -/
def countEv (p : Event → Bool) (tr : List Event) : Nat := (tr.filter p).length

/-- The locator an event addresses, if any (sleeps address none). -/
def evLoc : Event → Option String
  | Event.waitSel l _ => some l
  | Event.click l _ => some l
  | Event.sleepEv _ => none

/-! Helper lemmas about one attempt. -/

theorem clickAttempt_snd (d : Driver) (loc : String) (t : Int) (a : Nat) :
    (clickAttempt d loc t a).2 = attemptSucceeds d loc a := by
  unfold clickAttempt attemptSucceeds
  cases hw : d.waitOk loc a <;> cases hc : d.clickOk loc a <;> cases hf : d.forceOk loc a <;> simp

theorem countEv_append (p : Event → Bool) (l1 l2 : List Event) :
    countEv p (l1 ++ l2) = countEv p l1 + countEv p l2 := by
  simp [countEv, List.filter_append]

theorem getLast_append_right (l1 l2 : List Event) (h : l2 ≠ []) :
    (l1 ++ l2).getLast? = l2.getLast? := by
  rw [List.getLast?_append]
  obtain ⟨y, hy⟩ := Option.isSome_iff_exists.mp (List.getLast?_isSome.mpr h)
  simp [hy]

theorem countEv_eq_zero (p : Event → Bool) (tr : List Event)
    (h : ∀ e ∈ tr, p e = false) : countEv p tr = 0 := by
  simp only [countEv, List.length_eq_zero, List.filter_eq_nil_iff]
  intro e he
  simp [h e he]

theorem clickAttempt_countWait (d : Driver) (loc : String) (t : Int) (a : Nat) :
    countEv isWait (clickAttempt d loc t a).1 = 1 := by
  unfold clickAttempt
  cases hw : d.waitOk loc a <;> cases hc : d.clickOk loc a <;> cases hf : d.forceOk loc a <;>
    simp [countEv, isWait]

theorem clickAttempt_countSleep1000 (d : Driver) (loc : String) (t : Int) (a : Nat) :
    countEv (isSleep 1000) (clickAttempt d loc t a).1 = 0 := by
  unfold clickAttempt
  cases hw : d.waitOk loc a <;> cases hc : d.clickOk loc a <;> cases hf : d.forceOk loc a <;>
    simp [countEv, isSleep]

theorem clickAttempt_getLast_not_backoff (d : Driver) (loc : String) (t : Int) (a : Nat) :
    (clickAttempt d loc t a).1.getLast? ≠ some (Event.sleepEv 1000) := by
  unfold clickAttempt
  cases hw : d.waitOk loc a <;> cases hc : d.clickOk loc a <;> cases hf : d.forceOk loc a <;>
    simp [List.getLast?]

theorem clickAttempt_evLoc (d : Driver) (loc : String) (t : Int) (a : Nat) :
    ∀ e ∈ (clickAttempt d loc t a).1, evLoc e = none ∨ evLoc e = some loc := by
  unfold clickAttempt
  cases hw : d.waitOk loc a <;> cases hc : d.clickOk loc a <;> cases hf : d.forceOk loc a <;>
    (intro e he; simp at he) <;> rcases he with h | h | h | h <;> subst_eqs <;> simp [evLoc]

theorem clickAttempt_fst_head (d : Driver) (loc : String) (t : Int) (a : Nat) :
    (clickAttempt d loc t a).1.head? = some (Event.waitSel loc t) := by
  unfold clickAttempt
  cases hw : d.waitOk loc a <;> cases hc : d.clickOk loc a <;> cases hf : d.forceOk loc a <;> simp

/-! Unfolding equations for the two loops, by case on the current
attempt's outcome. -/

theorem retryGo_success (d : Driver) (loc : String) (t : Int) (a0 m : Nat)
    (hr : (clickAttempt d loc t a0).2 = true) :
    retryGo d loc t a0 (m + 1) = ((clickAttempt d loc t a0).1, some true) := by
  simp [retryGo, hr]

theorem retryGo_fail_last (d : Driver) (loc : String) (t : Int) (a0 : Nat)
    (hr : (clickAttempt d loc t a0).2 = false) :
    retryGo d loc t a0 1 = ((clickAttempt d loc t a0).1, some false) := by
  simp [retryGo, hr]

theorem retryGo_fail_step (d : Driver) (loc : String) (t : Int) (a0 m : Nat)
    (hr : (clickAttempt d loc t a0).2 = false) (hm : m ≠ 0) :
    retryGo d loc t a0 (m + 1) =
      ((clickAttempt d loc t a0).1 ++ Event.sleepEv 1000 :: (retryGo d loc t (a0 + 1) m).1,
        (retryGo d loc t (a0 + 1) m).2) := by
  simp [retryGo, hr, hm]

theorem chainGo_success (d : Driver) (loc : String) (t : Int) (a0 m : Nat)
    (hr : (clickAttempt d loc t a0).2 = true) :
    chainGo d loc t a0 (m + 1) = ((clickAttempt d loc t a0).1, true) := by
  simp [chainGo, hr]

theorem chainGo_fail_last (d : Driver) (loc : String) (t : Int) (a0 : Nat)
    (hr : (clickAttempt d loc t a0).2 = false) :
    chainGo d loc t a0 1 = ((clickAttempt d loc t a0).1, false) := by
  simp [chainGo, hr]

theorem chainGo_fail_step (d : Driver) (loc : String) (t : Int) (a0 m : Nat)
    (hr : (clickAttempt d loc t a0).2 = false) (hm : m ≠ 0) :
    chainGo d loc t a0 (m + 1) =
      ((clickAttempt d loc t a0).1 ++ Event.sleepEv 500 :: (chainGo d loc t (a0 + 1) m).1,
        (chainGo d loc t (a0 + 1) m).2) := by
  simp [chainGo, hr, hm]

theorem chainLoop_cons_success (d : Driver) (t m : Int) (loc : String) (rest : List String)
    (hr : (chainGo d loc t 1 m.toNat).2 = true) :
    chainLoop d t m (loc :: rest) = ((chainGo d loc t 1 m.toNat).1, true) := by
  simp [chainLoop, hr]

theorem chainLoop_cons_fail (d : Driver) (t m : Int) (loc : String) (rest : List String)
    (hr : (chainGo d loc t 1 m.toNat).2 = false) :
    chainLoop d t m (loc :: rest) =
      ((chainGo d loc t 1 m.toNat).1 ++ (chainLoop d t m rest).1, (chainLoop d t m rest).2) := by
  simp [chainLoop, hr]

/-- When every attempt fails, the retry loop with n ≥ 1 remaining
attempts returns some false, issues exactly n waits, sleeps the 1-second
backoff exactly n - 1 times, and does not end on a backoff sleep. -/
theorem retryGo_fail_spec (d : Driver) (loc : String) (t : Int)
    (hfail : ∀ a, attemptSucceeds d loc a = false) :
    ∀ n a0, 1 ≤ n →
      (retryGo d loc t a0 n).2 = some false
      ∧ countEv isWait (retryGo d loc t a0 n).1 = n
      ∧ countEv (isSleep 1000) (retryGo d loc t a0 n).1 = n - 1
      ∧ (retryGo d loc t a0 n).1.getLast? ≠ some (Event.sleepEv 1000) := by
  intro n
  induction n with
  | zero => intro a0 h; omega
  | succ m ih =>
    intro a0 _
    have hr : (clickAttempt d loc t a0).2 = false := by
      rw [clickAttempt_snd]; exact hfail a0
    by_cases hm : m = 0
    · subst hm
      rw [retryGo_fail_last d loc t a0 hr]
      refine ⟨rfl, ?_, ?_, ?_⟩
      · simpa using clickAttempt_countWait d loc t a0
      · simpa using clickAttempt_countSleep1000 d loc t a0
      · simpa using clickAttempt_getLast_not_backoff d loc t a0
    · have hm1 : 1 ≤ m := by omega
      obtain ⟨ih1, ih2, ih3, ih4⟩ := ih (a0 + 1) hm1
      have hne : (retryGo d loc t (a0 + 1) m).1 ≠ [] := by
        intro hnil
        rw [hnil] at ih2
        simp [countEv] at ih2
        omega
      rw [retryGo_fail_step d loc t a0 m hr hm]
      have hsplit : (clickAttempt d loc t a0).1 ++ Event.sleepEv 1000 ::
          (retryGo d loc t (a0 + 1) m).1 =
          (clickAttempt d loc t a0).1 ++ ([Event.sleepEv 1000] ++
          (retryGo d loc t (a0 + 1) m).1) := by simp
      refine ⟨ih1, ?_, ?_, ?_⟩
      · show countEv isWait ((clickAttempt d loc t a0).1 ++ Event.sleepEv 1000 ::
          (retryGo d loc t (a0 + 1) m).1) = m + 1
        rw [hsplit, countEv_append, countEv_append, clickAttempt_countWait, ih2]
        simp [countEv, isWait]
        omega
      · show countEv (isSleep 1000) ((clickAttempt d loc t a0).1 ++ Event.sleepEv 1000 ::
          (retryGo d loc t (a0 + 1) m).1) = m + 1 - 1
        rw [hsplit, countEv_append, countEv_append, clickAttempt_countSleep1000, ih3]
        simp [countEv, isSleep]
        omega
      · show ((clickAttempt d loc t a0).1 ++ Event.sleepEv 1000 ::
          (retryGo d loc t (a0 + 1) m).1).getLast? ≠ some (Event.sleepEv 1000)
        rw [getLast_append_right _ _ (by simp)]
        obtain ⟨b, L, hbl⟩ := List.exists_cons_of_ne_nil hne
        rw [hbl, List.getLast?_cons_cons]
        rw [hbl] at ih4
        exact ih4

/-- When the first success happens exactly at attempt a0 + j (all
earlier attempts of this run failing), the retry loop returns some true,
issues exactly j + 1 waits, and produces the same trace and result as a
run whose bound is just large enough to reach that attempt: nothing
after the success is executed. -/
theorem retryGo_first_success (d : Driver) (loc : String) (t : Int) :
    ∀ j n a0, j < n →
      (∀ i, i < j → attemptSucceeds d loc (a0 + i) = false) →
      attemptSucceeds d loc (a0 + j) = true →
      (retryGo d loc t a0 n).2 = some true
      ∧ countEv isWait (retryGo d loc t a0 n).1 = j + 1
      ∧ retryGo d loc t a0 n = retryGo d loc t a0 (j + 1) := by
  intro j
  induction j with
  | zero =>
    intro n a0 hn _ hsucc
    obtain ⟨m, rfl⟩ := Nat.exists_eq_succ_of_ne_zero (by omega : n ≠ 0)
    have hr : (clickAttempt d loc t a0).2 = true := by
      rw [clickAttempt_snd]; simpa using hsucc
    rw [retryGo_success d loc t a0 m hr, show (0 + 1 : Nat) = 0 + 1 from rfl,
      retryGo_success d loc t a0 0 hr]
    exact ⟨rfl, clickAttempt_countWait d loc t a0, rfl⟩
  | succ j ih =>
    intro n a0 hn hfail hsucc
    obtain ⟨m, rfl⟩ := Nat.exists_eq_succ_of_ne_zero (by omega : n ≠ 0)
    have hm : m ≠ 0 := by omega
    have hr : (clickAttempt d loc t a0).2 = false := by
      rw [clickAttempt_snd]; simpa using hfail 0 (by omega)
    have hshift : ∀ i, i < j → attemptSucceeds d loc (a0 + 1 + i) = false := by
      intro i hi
      have := hfail (i + 1) (by omega)
      rwa [show a0 + 1 + i = a0 + (i + 1) by omega]
    have hsucc1 : attemptSucceeds d loc (a0 + 1 + j) = true := by
      rwa [show a0 + 1 + j = a0 + (j + 1) by omega]
    obtain ⟨ih1, ih2, ih3⟩ := ih m (a0 + 1) (by omega) hshift hsucc1
    rw [retryGo_fail_step d loc t a0 m hr hm,
      retryGo_fail_step d loc t a0 (j + 1) hr (by omega)]
    refine ⟨by simpa using ih1, ?_, ?_⟩
    · show countEv isWait ((clickAttempt d loc t a0).1 ++ Event.sleepEv 1000 ::
        (retryGo d loc t (a0 + 1) m).1) = j + 1 + 1
      rw [show (clickAttempt d loc t a0).1 ++ Event.sleepEv 1000 ::
          (retryGo d loc t (a0 + 1) m).1 =
          (clickAttempt d loc t a0).1 ++ ([Event.sleepEv 1000] ++
          (retryGo d loc t (a0 + 1) m).1) by simp]
      rw [countEv_append, countEv_append, clickAttempt_countWait, ih2]
      simp [countEv, isWait]
      omega
    · rw [ih3]

/-! Per-locator lemmas for the fallback chain. -/

theorem clickAttempt_countWaitFor_self (d : Driver) (loc : String) (t : Int) (a : Nat) :
    countEv (isWaitFor loc) (clickAttempt d loc t a).1 = 1 := by
  unfold clickAttempt
  cases hw : d.waitOk loc a <;> cases hc : d.clickOk loc a <;> cases hf : d.forceOk loc a <;>
    simp [countEv, isWaitFor]

/-- Every event a per-locator run issues addresses that locator (sleeps
address none): the run never touches another candidate. -/
theorem chainGo_evLoc (d : Driver) (loc : String) (t : Int) :
    ∀ n a0, ∀ e ∈ (chainGo d loc t a0 n).1, evLoc e = none ∨ evLoc e = some loc := by
  intro n
  induction n with
  | zero => intro a0 e he; simp [chainGo] at he
  | succ m ih =>
    intro a0 e he
    by_cases hr : (clickAttempt d loc t a0).2 = true
    · rw [chainGo_success d loc t a0 m hr] at he
      exact clickAttempt_evLoc d loc t a0 e he
    · rw [Bool.not_eq_true] at hr
      by_cases hm : m = 0
      · subst hm
        rw [chainGo_fail_last d loc t a0 hr] at he
        exact clickAttempt_evLoc d loc t a0 e he
      · rw [chainGo_fail_step d loc t a0 m hr hm] at he
        simp only [List.mem_append, List.mem_cons] at he
        rcases he with h | h | h
        · exact clickAttempt_evLoc d loc t a0 e h
        · subst h; left; rfl
        · exact ih (a0 + 1) e h

/-- A trace whose events all address loc has no waits and no clicks for
any other locator. -/
theorem countFor_zero_of_evLoc (tr : List Event) (loc : String)
    (h : ∀ e ∈ tr, evLoc e = none ∨ evLoc e = some loc)
    (loc' : String) (hne : loc' ≠ loc) :
    countEv (isWaitFor loc') tr = 0 ∧ countEv (isClickFor loc') tr = 0 := by
  constructor
  · refine countEv_eq_zero _ _ ?_
    intro e he
    cases e with
    | waitSel l tm =>
      rcases h _ he with hl | hl
      · simp [evLoc] at hl
      · simp only [evLoc, Option.some.injEq] at hl
        subst hl
        simp [isWaitFor]
        intro hcon
        exact hne hcon.symm
    | sleepEv ms => rfl
    | click l f => rfl
  · refine countEv_eq_zero _ _ ?_
    intro e he
    cases e with
    | click l f =>
      rcases h _ he with hl | hl
      · simp [evLoc] at hl
      · simp only [evLoc, Option.some.injEq] at hl
        subst hl
        simp [isClickFor]
        intro hcon
        exact hne hcon.symm
    | sleepEv ms => rfl
    | waitSel l tm => rfl

/-- When every attempt at this locator fails, the per-locator run
reports failure and issues exactly one wait for it per attempt. -/
theorem chainGo_fail_spec (d : Driver) (loc : String) (t : Int)
    (hfail : ∀ a, attemptSucceeds d loc a = false) :
    ∀ n a0, (chainGo d loc t a0 n).2 = false
      ∧ countEv (isWaitFor loc) (chainGo d loc t a0 n).1 = n := by
  intro n
  induction n with
  | zero => intro a0; exact ⟨rfl, rfl⟩
  | succ m ih =>
    intro a0
    have hr : (clickAttempt d loc t a0).2 = false := by
      rw [clickAttempt_snd]; exact hfail a0
    by_cases hm : m = 0
    · subst hm
      rw [chainGo_fail_last d loc t a0 hr]
      exact ⟨rfl, by simpa using clickAttempt_countWaitFor_self d loc t a0⟩
    · obtain ⟨ih1, ih2⟩ := ih (a0 + 1)
      rw [chainGo_fail_step d loc t a0 m hr hm]
      refine ⟨ih1, ?_⟩
      show countEv (isWaitFor loc) ((clickAttempt d loc t a0).1 ++ Event.sleepEv 500 ::
        (chainGo d loc t (a0 + 1) m).1) = m + 1
      rw [show (clickAttempt d loc t a0).1 ++ Event.sleepEv 500 ::
          (chainGo d loc t (a0 + 1) m).1 =
          (clickAttempt d loc t a0).1 ++ ([Event.sleepEv 500] ++
          (chainGo d loc t (a0 + 1) m).1) by simp]
      rw [countEv_append, countEv_append, clickAttempt_countWaitFor_self, ih2]
      simp [countEv, isWaitFor]
      omega

/-- A locator whose first attempt succeeds is resolved by exactly that
one attempt. -/
theorem chainGo_success_first (d : Driver) (loc : String) (t : Int) (a0 n : Nat)
    (hsucc : attemptSucceeds d loc a0 = true) (hn : 1 ≤ n) :
    chainGo d loc t a0 n = ((clickAttempt d loc t a0).1, true) := by
  obtain ⟨m, rfl⟩ := Nat.exists_eq_succ_of_ne_zero (by omega : n ≠ 0)
  exact chainGo_success d loc t a0 m (by rw [clickAttempt_snd]; exact hsucc)

/-- When every attempt on every locator fails, the chain returns false
for any locator list. -/
theorem chainLoop_all_fail (d : Driver) (t m : Int)
    (hfail : ∀ loc a, attemptSucceeds d loc a = false) :
    ∀ L : List String, (chainLoop d t m L).2 = false := by
  intro L
  induction L with
  | nil => rfl
  | cons loc rest ih =>
    have hr : (chainGo d loc t 1 m.toNat).2 = false :=
      (chainGo_fail_spec d loc t (hfail loc) m.toNat 1).1
    rw [chainLoop_cons_fail d t m loc rest hr]
    exact ih

/-- Chain behaviour when the locators before locM always fail and locM
succeeds on its first attempt: the chain succeeds, each earlier locator
gets exactly one wait per configured attempt, and a locator that is
neither among the earlier ones nor locM itself gets no wait and no
click at all. -/
theorem chainLoop_c3_main (d : Driver) (t m : Int) (locM : String) (B : List String)
    (hM : attemptSucceeds d locM 1 = true) (hm : 1 ≤ m) :
    ∀ A : List String, (∀ loc ∈ A, ∀ x, attemptSucceeds d loc x = false) →
      (A ++ locM :: B).Nodup →
      (chainLoop d t m (A ++ locM :: B)).2 = true
      ∧ (∀ loc ∈ A, countEv (isWaitFor loc) (chainLoop d t m (A ++ locM :: B)).1 = m.toNat)
      ∧ (∀ loc, loc ∉ A → loc ≠ locM →
          countEv (isWaitFor loc) (chainLoop d t m (A ++ locM :: B)).1 = 0
          ∧ countEv (isClickFor loc) (chainLoop d t m (A ++ locM :: B)).1 = 0) := by
  intro A
  induction A with
  | nil =>
    intro _ _
    have hr : chainGo d locM t 1 m.toNat = ((clickAttempt d locM t 1).1, true) :=
      chainGo_success_first d locM t 1 m.toNat hM (by omega)
    have hloop : chainLoop d t m ([] ++ locM :: B) = ((clickAttempt d locM t 1).1, true) := by
      show chainLoop d t m (locM :: B) = _
      rw [chainLoop_cons_success d t m locM B (by rw [hr]), hr]
    refine ⟨by rw [hloop], ?_, ?_⟩
    · intro loc hloc; simp at hloc
    · intro loc _ hne
      rw [hloop]
      exact countFor_zero_of_evLoc _ locM (clickAttempt_evLoc d locM t 1) loc hne
  | cons a A' ih =>
    intro hA hnodup
    simp only [List.cons_append] at hnodup ⊢
    have haA : a ∉ A' ++ locM :: B := (List.nodup_cons.mp hnodup).1
    have hnodup' : (A' ++ locM :: B).Nodup := (List.nodup_cons.mp hnodup).2
    have hafail : ∀ x, attemptSucceeds d a x = false := hA a (List.mem_cons_self a A')
    have hA' : ∀ loc ∈ A', ∀ x, attemptSucceeds d loc x = false :=
      fun loc hl => hA loc (List.mem_cons_of_mem a hl)
    obtain ⟨ih1, ih2, ih3⟩ := ih hA' hnodup'
    have hrfail := chainGo_fail_spec d a t hafail m.toNat 1
    have hloop : chainLoop d t m (a :: (A' ++ locM :: B)) =
        ((chainGo d a t 1 m.toNat).1 ++ (chainLoop d t m (A' ++ locM :: B)).1,
          (chainLoop d t m (A' ++ locM :: B)).2) :=
      chainLoop_cons_fail d t m a (A' ++ locM :: B) hrfail.1
    have haM : a ≠ locM := by
      intro h; exact haA (by simp [h])
    have haA' : a ∉ A' := fun h => haA (by simp [h])
    refine ⟨?_, ?_, ?_⟩
    · rw [hloop]; exact ih1
    · intro loc hloc
      rw [hloop]
      show countEv (isWaitFor loc) ((chainGo d a t 1 m.toNat).1 ++
        (chainLoop d t m (A' ++ locM :: B)).1) = m.toNat
      rw [countEv_append]
      rcases List.mem_cons.mp hloc with rfl | hloc'
      · rw [hrfail.2, (ih3 loc haA' haM).1]
        omega
      · have hne : loc ≠ a := fun h => haA' (h ▸ hloc')
        rw [(countFor_zero_of_evLoc _ a (chainGo_evLoc d a t m.toNat 1) loc hne).1,
          ih2 loc hloc']
        omega
    · intro loc hloc hne
      have hla : loc ≠ a := fun h => hloc (by simp [h])
      have hlA' : loc ∉ A' := fun h => hloc (by simp [h])
      have hz1 := countFor_zero_of_evLoc _ a (chainGo_evLoc d a t m.toNat 1) loc hla
      have hz2 := ih3 loc hlA' hne
      constructor
      · rw [hloop]
        show countEv (isWaitFor loc) ((chainGo d a t 1 m.toNat).1 ++
          (chainLoop d t m (A' ++ locM :: B)).1) = 0
        rw [countEv_append, hz1.1, hz2.1]
      · rw [hloop]
        show countEv (isClickFor loc) ((chainGo d a t 1 m.toNat).1 ++
          (chainLoop d t m (A' ++ locM :: B)).1) = 0
        rw [countEv_append, hz1.2, hz2.2]

/-! Concrete drivers used by the witnesses. -/

/-- Driver on which every wait and every click fails. -/
def dAllFail : Driver := ⟨fun _ _ => false, fun _ _ => false, fun _ _ => false⟩

/-- Driver on which every wait and every click succeeds. -/
def dAllOk : Driver := ⟨fun _ _ => true, fun _ _ => true, fun _ _ => true⟩

/-- Driver on which waits succeed, the normal click always fails and
the forced click always succeeds. -/
def dForceOnly : Driver := ⟨fun _ _ => true, fun _ _ => false, fun _ _ => true⟩

/-- Driver on which waits succeed and the normal click starts
succeeding at attempt 2. -/
def dFrom2 : Driver := ⟨fun _ _ => true, fun _ a => decide (2 ≤ a), fun _ _ => false⟩

/-- Driver on which waits succeed and only the locator "b" is
clickable. -/
def dOnlyB : Driver := ⟨fun _ _ => true, fun l _ => l == "b", fun _ _ => false⟩

/-- C1: for every maxAttempts ≥ 1, if every click call (normal and
forced) fails on every attempt — in particular when the waits fail
too — click_with_retry performs exactly maxAttempts wait+click cycles
(one wait_for_selector per cycle) and returns False. -/
theorem c1_retry_all_click_failures (d : Driver) (loc : String) (t m : Int)
    (hm : 1 ≤ m)
    (hclick : ∀ a, d.clickOk loc a = false) (hforce : ∀ a, d.forceOk loc a = false) :
    (click_with_retry d loc t m).2 = some false
    ∧ countEv isWait (click_with_retry d loc t m).1 = m.toNat := by
  have hfail : ∀ a, attemptSucceeds d loc a = false := by
    intro a; simp [attemptSucceeds, hclick a, hforce a]
  have h := retryGo_fail_spec d loc t hfail m.toNat 1 (by omega)
  exact ⟨h.1, h.2.1⟩

theorem c1_witness :
    (1 : Int) ≤ 3
    ∧ (∀ a, dAllFail.clickOk "x" a = false)
    ∧ (∀ a, dAllFail.forceOk "x" a = false)
    ∧ (click_with_retry dAllFail "x" 5000 3).2 = some false
    ∧ countEv isWait (click_with_retry dAllFail "x" 5000 3).1 = (3 : Int).toNat :=
  ⟨by decide, fun _ => rfl, fun _ => rfl,
    (c1_retry_all_click_failures dAllFail "x" 5000 3 (by decide)
      (fun _ => rfl) (fun _ => rfl)).1,
    (c1_retry_all_click_failures dAllFail "x" 5000 3 (by decide)
      (fun _ => rfl) (fun _ => rfl)).2⟩

/-- C2: if the click first succeeds on attempt k with 1 ≤ k ≤
maxAttempts (via the normal or the forced click — attemptSucceeds),
click_with_retry performs exactly k wait+click cycles, returns True,
and behaves identically to a run bounded by k itself: no (k+1)-th wait
or click is ever issued. -/
theorem c2_retry_stops_at_first_success (d : Driver) (loc : String) (t m : Int) (k : Nat)
    (hk : 1 ≤ k) (hkm : (k : Int) ≤ m)
    (hfail : ∀ a, 1 ≤ a → a < k → attemptSucceeds d loc a = false)
    (hsucc : attemptSucceeds d loc k = true) :
    (click_with_retry d loc t m).2 = some true
    ∧ countEv isWait (click_with_retry d loc t m).1 = k
    ∧ click_with_retry d loc t m = click_with_retry d loc t (k : Int) := by
  have hj : k - 1 < m.toNat := by omega
  have hshift : ∀ i, i < k - 1 → attemptSucceeds d loc (1 + i) = false := by
    intro i hi
    exact hfail (1 + i) (by omega) (by omega)
  have hsucc1 : attemptSucceeds d loc (1 + (k - 1)) = true := by
    rwa [show 1 + (k - 1) = k by omega]
  obtain ⟨h1, h2, h3⟩ := retryGo_first_success d loc t (k - 1) m.toNat 1 hj hshift hsucc1
  rw [show k - 1 + 1 = k by omega] at h2 h3
  refine ⟨h1, h2, ?_⟩
  show retryGo d loc t 1 m.toNat = retryGo d loc t 1 (k : Int).toNat
  rw [h3, show ((k : Int)).toNat = k by omega]

theorem c2_witness :
    1 ≤ 2
    ∧ ((2 : Nat) : Int) ≤ 3
    ∧ (∀ a, 1 ≤ a → a < 2 → attemptSucceeds dFrom2 "x" a = false)
    ∧ attemptSucceeds dFrom2 "x" 2 = true
    ∧ (click_with_retry dFrom2 "x" 5000 3).2 = some true
    ∧ countEv isWait (click_with_retry dFrom2 "x" 5000 3).1 = 2
    ∧ click_with_retry dFrom2 "x" 5000 3 = click_with_retry dFrom2 "x" 5000 ((2 : Nat) : Int) := by
  have hfail : ∀ a, 1 ≤ a → a < 2 → attemptSucceeds dFrom2 "x" a = false := by
    intro a h1 h2
    have ha : a = 1 := by omega
    subst ha
    decide
  have h := c2_retry_stops_at_first_success dFrom2 "x" 5000 3 2 (by decide) (by decide)
    hfail (by decide)
  exact ⟨by decide, by decide, hfail, by decide, h.1, h.2.1, h.2.2⟩

/-- C3: for a chain A ++ locM :: B (so locM is the m-th locator with
m = A.length + 1) of pairwise distinct locators in which only locM is
clickable — every attempt at a locator of A fails and locM succeeds on
its first attempt — click_with_fallback_chain waits for each locator of
A exactly maxAttemptsPerLocator times, returns True via locM, and
issues no wait and no click for any locator of B. -/
theorem c3_chain_stops_at_first_clickable (d : Driver) (t m : Int)
    (A : List String) (locM : String) (B : List String)
    (hm : 1 ≤ m) (hnodup : (A ++ locM :: B).Nodup)
    (hA : ∀ loc ∈ A, ∀ x, attemptSucceeds d loc x = false)
    (hM : attemptSucceeds d locM 1 = true) :
    (click_with_fallback_chain d (A ++ locM :: B) t m).2 = true
    ∧ (∀ loc ∈ A,
        countEv (isWaitFor loc) (click_with_fallback_chain d (A ++ locM :: B) t m).1 = m.toNat)
    ∧ (∀ loc ∈ B,
        countEv (isWaitFor loc) (click_with_fallback_chain d (A ++ locM :: B) t m).1 = 0
        ∧ countEv (isClickFor loc) (click_with_fallback_chain d (A ++ locM :: B) t m).1 = 0) := by
  obtain ⟨h1, h2, h3⟩ := chainLoop_c3_main d t m locM B hM hm A hA hnodup
  refine ⟨h1, h2, ?_⟩
  intro loc hloc
  rw [List.nodup_append] at hnodup
  have hlA : loc ∉ A := fun h => hnodup.2.2 h (List.mem_cons_of_mem locM hloc)
  have hlM : loc ≠ locM := by
    intro h
    subst h
    exact (List.nodup_cons.mp hnodup.2.1).1 hloc
  exact h3 loc hlA hlM

theorem c3_witness :
    (1 : Int) ≤ 2
    ∧ (["a"] ++ "b" :: ["c"]).Nodup
    ∧ (∀ loc ∈ ["a"], ∀ x, attemptSucceeds dOnlyB loc x = false)
    ∧ attemptSucceeds dOnlyB "b" 1 = true
    ∧ (click_with_fallback_chain dOnlyB (["a"] ++ "b" :: ["c"]) 5000 2).2 = true
    ∧ (∀ loc ∈ ["a"],
        countEv (isWaitFor loc)
          (click_with_fallback_chain dOnlyB (["a"] ++ "b" :: ["c"]) 5000 2).1 = (2 : Int).toNat)
    ∧ (∀ loc ∈ ["c"],
        countEv (isWaitFor loc)
          (click_with_fallback_chain dOnlyB (["a"] ++ "b" :: ["c"]) 5000 2).1 = 0
        ∧ countEv (isClickFor loc)
          (click_with_fallback_chain dOnlyB (["a"] ++ "b" :: ["c"]) 5000 2).1 = 0) := by
  have hA : ∀ loc ∈ ["a"], ∀ x, attemptSucceeds dOnlyB loc x = false := by
    intro loc hl x
    simp only [List.mem_singleton] at hl
    subst hl
    rfl
  have h := c3_chain_stops_at_first_clickable dOnlyB 5000 2 ["a"] "b" ["c"]
    (by decide) (by decide) hA (by decide)
  exact ⟨by decide, by decide, hA, by decide, h.1, h.2.1, h.2.2⟩

/-- C4: within a single attempt, after the wait succeeds, the standard
click is tried first, and on its failure (for any reason) the forced
click is tried as a second chance in the same attempt; a forced-click
success returns True immediately, both in click_with_retry and in
click_with_fallback_chain (where the remaining chain is untouched).
When the standard click succeeds, no forced click is issued. -/
theorem c4_forced_click_second_chance (d : Driver) (loc : String) (rest : List String)
    (t m : Int) (hm : 1 ≤ m)
    (hw : d.waitOk loc 1 = true) (hc : d.clickOk loc 1 = false) (hf : d.forceOk loc 1 = true) :
    click_with_retry d loc t m =
      ([Event.waitSel loc t, Event.sleepEv 500, Event.click loc false, Event.click loc true],
        some true)
    ∧ click_with_fallback_chain d (loc :: rest) t m =
      ([Event.waitSel loc t, Event.sleepEv 500, Event.click loc false, Event.click loc true],
        true)
    ∧ (∀ a, d.waitOk loc a = true → d.clickOk loc a = true →
        clickAttempt d loc t a =
          ([Event.waitSel loc t, Event.sleepEv 500, Event.click loc false], true)) := by
  have hca : clickAttempt d loc t 1 =
      ([Event.waitSel loc t, Event.sleepEv 500, Event.click loc false, Event.click loc true],
        true) := by
    simp [clickAttempt, hw, hc, hf]
  have hsucc : attemptSucceeds d loc 1 = true := by
    simp [attemptSucceeds, hw, hf]
  obtain ⟨mm, hmm⟩ := Nat.exists_eq_succ_of_ne_zero (by omega : m.toNat ≠ 0)
  refine ⟨?_, ?_, ?_⟩
  · show retryGo d loc t 1 m.toNat = _
    rw [hmm, retryGo_success d loc t 1 mm (by rw [hca]), hca]
  · show chainLoop d t m (loc :: rest) = _
    have hgo : chainGo d loc t 1 m.toNat = ((clickAttempt d loc t 1).1, true) :=
      chainGo_success_first d loc t 1 m.toNat hsucc (by omega)
    rw [chainLoop_cons_success d t m loc rest (by rw [hgo]), hgo, hca]
  · intro a hwa hca2
    simp [clickAttempt, hwa, hca2]

theorem c4_witness :
    (1 : Int) ≤ 3
    ∧ dForceOnly.waitOk "x" 1 = true
    ∧ dForceOnly.clickOk "x" 1 = false
    ∧ dForceOnly.forceOk "x" 1 = true
    ∧ click_with_retry dForceOnly "x" 5000 3 =
      ([Event.waitSel "x" 5000, Event.sleepEv 500, Event.click "x" false, Event.click "x" true],
        some true)
    ∧ click_with_fallback_chain dForceOnly ["x", "y"] 5000 3 =
      ([Event.waitSel "x" 5000, Event.sleepEv 500, Event.click "x" false, Event.click "x" true],
        true) := by
  have h := c4_forced_click_second_chance dForceOnly "x" ["y"] 5000 3
    (by decide) rfl rfl rfl
  exact ⟨by decide, rfl, rfl, rfl, h.1, h.2.1⟩

/-- C5: when every attempt fails (both clicks fail or the wait fails),
click_with_retry records each attempt as failed: it takes the fixed
1-second backoff exactly once between consecutive attempts (maxAttempts
- 1 times in total), never ends its driver-call sequence on a backoff —
so no backoff follows the final failed attempt — and returns False. -/
theorem c5_retry_backoff_between_attempts (d : Driver) (loc : String) (t m : Int)
    (hm : 1 ≤ m) (hfail : ∀ a, attemptSucceeds d loc a = false) :
    (click_with_retry d loc t m).2 = some false
    ∧ countEv (isSleep 1000) (click_with_retry d loc t m).1 = m.toNat - 1
    ∧ (click_with_retry d loc t m).1.getLast? ≠ some (Event.sleepEv 1000) := by
  have h := retryGo_fail_spec d loc t hfail m.toNat 1 (by omega)
  exact ⟨h.1, h.2.2.1, h.2.2.2⟩

theorem c5_witness :
    (1 : Int) ≤ 2
    ∧ (∀ a, attemptSucceeds dAllFail "x" a = false)
    ∧ (click_with_retry dAllFail "x" 5000 2).2 = some false
    ∧ countEv (isSleep 1000) (click_with_retry dAllFail "x" 5000 2).1 = (2 : Int).toNat - 1
    ∧ (click_with_retry dAllFail "x" 5000 2).1.getLast? ≠ some (Event.sleepEv 1000) := by
  have h := c5_retry_backoff_between_attempts dAllFail "x" 5000 2 (by decide) (fun _ => rfl)
  exact ⟨by decide, fun _ => rfl, h.1, h.2.1, h.2.2⟩

/-- C6: for every locator, locator list, timeout and maxAttempts ≥ 1,
when every attempt fails — so all attempts and, for the chain, all
candidates are exhausted without a successful click — click_with_retry
returns the value some false and click_with_fallback_chain returns
false.  Both embeddings are total Lean functions: every driver failure
is consumed as a returned outcome, mirroring that in the source every
driver call sits inside try/except and no exception propagates to the
caller. -/
theorem c6_exhaustion_returns_false (d : Driver) (loc : String) (L : List String)
    (t m : Int) (hm : 1 ≤ m)
    (hfail : ∀ l a, attemptSucceeds d l a = false) :
    (click_with_retry d loc t m).2 = some false
    ∧ (click_with_fallback_chain d L t m).2 = false :=
  ⟨(retryGo_fail_spec d loc t (hfail loc) m.toNat 1 (by omega)).1,
    chainLoop_all_fail d t m hfail L⟩

theorem c6_witness :
    (1 : Int) ≤ 2
    ∧ (∀ l a, attemptSucceeds dAllFail l a = false)
    ∧ (click_with_retry dAllFail "x" 5000 2).2 = some false
    ∧ (click_with_fallback_chain dAllFail ["a", "b"] 5000 2).2 = false := by
  have h := c6_exhaustion_returns_false dAllFail "x" ["a", "b"] 5000 2 (by decide)
    (fun _ _ => rfl)
  exact ⟨by decide, fun _ _ => rfl, h.1, h.2⟩

/-- C7: called on an empty locator list, click_with_fallback_chain
returns False with an empty trace: zero driver calls — no waits, no
clicks, no sleeps. -/
theorem c7_empty_chain_no_driver_calls (d : Driver) (t m : Int) :
    click_with_fallback_chain d [] t m = ([], false) := rfl

/-- C8: all driver calls are recorded in one linear trace — the model
of one cooperative task issuing calls one at a time, never two
concurrently — and that trace is ordered as the source's control flow
dictates: within an attempt the wait_for_selector is the first call
(so it precedes any click of that attempt); a failed attempt of the
retry loop is followed, after the backoff sleep, by the whole trace of
the later attempts; a per-locator run of the chain only ever addresses
its own locator; and the chain's trace for loc :: rest is the whole
trace for loc followed (only on failure) by the whole trace for rest,
so every call for an earlier candidate precedes every call for a later
one. -/
theorem c8_driver_calls_sequential (d : Driver) (loc : String) (rest : List String)
    (t m : Int) (a n : Nat) :
    (clickAttempt d loc t a).1.head? = some (Event.waitSel loc t)
    ∧ (∀ e ∈ (chainGo d loc t a n).1, evLoc e = none ∨ evLoc e = some loc)
    ∧ ((chainGo d loc t 1 m.toNat).2 = false →
        click_with_fallback_chain d (loc :: rest) t m =
          ((chainGo d loc t 1 m.toNat).1 ++ (click_with_fallback_chain d rest t m).1,
            (click_with_fallback_chain d rest t m).2))
    ∧ ((chainGo d loc t 1 m.toNat).2 = true →
        click_with_fallback_chain d (loc :: rest) t m = ((chainGo d loc t 1 m.toNat).1, true))
    ∧ ((clickAttempt d loc t a).2 = false → n ≠ 0 →
        retryGo d loc t a (n + 1) =
          ((clickAttempt d loc t a).1 ++ Event.sleepEv 1000 :: (retryGo d loc t (a + 1) n).1,
            (retryGo d loc t (a + 1) n).2)) :=
  ⟨clickAttempt_fst_head d loc t a,
    chainGo_evLoc d loc t n a,
    fun hr => chainLoop_cons_fail d t m loc rest hr,
    fun hr => chainLoop_cons_success d t m loc rest hr,
    fun hr hn => retryGo_fail_step d loc t a n hr hn⟩

theorem c8_witness :
    (clickAttempt dAllOk "a" 5000 1).1.head? = some (Event.waitSel "a" 5000)
    ∧ (∀ e ∈ (chainGo dAllOk "a" 5000 1 2).1, evLoc e = none ∨ evLoc e = some "a")
    ∧ ((chainGo dAllOk "a" 5000 1 (2 : Int).toNat).2 = false →
        click_with_fallback_chain dAllOk ("a" :: ["b"]) 5000 2 =
          ((chainGo dAllOk "a" 5000 1 (2 : Int).toNat).1 ++
            (click_with_fallback_chain dAllOk ["b"] 5000 2).1,
            (click_with_fallback_chain dAllOk ["b"] 5000 2).2))
    ∧ ((chainGo dAllOk "a" 5000 1 (2 : Int).toNat).2 = true →
        click_with_fallback_chain dAllOk ("a" :: ["b"]) 5000 2 =
          ((chainGo dAllOk "a" 5000 1 (2 : Int).toNat).1, true))
    ∧ ((clickAttempt dAllOk "a" 5000 1).2 = false → (2 : Nat) ≠ 0 →
        retryGo dAllOk "a" 5000 1 (2 + 1) =
          ((clickAttempt dAllOk "a" 5000 1).1 ++ Event.sleepEv 1000 ::
            (retryGo dAllOk "a" 5000 2 2).1,
            (retryGo dAllOk "a" 5000 2 2).2)) :=
  c8_driver_calls_sequential dAllOk "a" ["b"] 5000 2 1 2

/-- C9: called with max_attempts ≤ 0, click_with_retry's loop body
never runs: the trace is empty (zero driver calls) and the function
returns Python's implicit None — modelled as none — rather than a
boolean, so the boolean result contract only holds for
max_attempts ≥ 1. -/
theorem c9_retry_nonpositive_attempts_returns_none (d : Driver) (loc : String)
    (t m : Int) (hm : m ≤ 0) :
    click_with_retry d loc t m = ([], none) := by
  show retryGo d loc t 1 m.toNat = ([], none)
  rw [show m.toNat = 0 by omega]
  rfl

theorem c9_witness :
    (0 : Int) ≤ 0 ∧ click_with_retry dAllOk "x" 5000 0 = ([], none) :=
  ⟨by decide, c9_retry_nonpositive_attempts_returns_none dAllOk "x" 5000 0 (by decide)⟩

/-- C10: called with max_attempts ≤ 0, click_with_fallback_chain's
inner attempt loop runs zero times for every candidate, so for every
locator list — empty or not — it returns False with an empty trace:
zero driver waits or clicks. -/
theorem c10_chain_nonpositive_attempts_returns_false (d : Driver) (L : List String)
    (t m : Int) (hm : m ≤ 0) :
    click_with_fallback_chain d L t m = ([], false) := by
  have h0 : m.toNat = 0 := by omega
  show chainLoop d t m L = ([], false)
  induction L with
  | nil => rfl
  | cons loc rest ih =>
    rw [chainLoop_cons_fail d t m loc rest (by rw [h0]; rfl), ih, h0]
    rfl

theorem c10_witness :
    (-1 : Int) ≤ 0 ∧ click_with_fallback_chain dAllOk ["a", "b"] 5000 (-1) = ([], false) :=
  ⟨by decide,
    c10_chain_nonpositive_attempts_returns_false dAllOk ["a", "b"] 5000 (-1) (by decide)⟩

